import Mathlib

/-!
Verification development for the `tarkov-map` repository.

Part 1 models the viewer's coordinate projector
(`src/bin/tarkov-map/coordinates.rs`): the pure function `game_to_display`
that places a game-world point onto a raster image shown inside a display
rectangle.  Rust `f64`/`f32` values are modelled as real numbers; the `egui`
geometry types are modelled structurally.

Part 2 models the asset build pipeline (`src/bin/fetch_maps.rs`): spawn
normalization, source-strategy selection, the tile-pyramid zoom/grid
arithmetic, the cache short-circuits of `process_svg_map` /
`process_tile_map`, and tile composition.  There `f32`/`f64` values that
only ever undergo rational arithmetic are modelled as `ℚ`, Rust `i32` as
`ℤ` and `u32` sizes as `ℕ` (the concrete sizes involved are far below
`2^32`, where that matters theorems carry explicit smallness hypotheses).
-/

namespace Coordinates

/-- Model of `egui::Rect`: an axis-aligned rectangle given by its `min` and
`max` corner coordinates (`f32` modelled as `ℝ`). -/
structure Rect where
  min_x : ℝ
  min_y : ℝ
  max_x : ℝ
  max_y : ℝ

/-- Model of `egui::Rect::width`: `max.x - min.x`. -/
def Rect.width (r : Rect) : ℝ := r.max_x - r.min_x

/-- Model of `egui::Rect::height`: `max.y - min.y`. -/
def Rect.height (r : Rect) : ℝ := r.max_y - r.min_y

/-- Model of `egui::Rect::contains`: `min.x <= p.x && p.x <= max.x &&
min.y <= p.y && p.y <= max.y`. -/
def Rect.containsPt (r : Rect) (p : ℝ × ℝ) : Prop :=
  r.min_x ≤ p.1 ∧ p.1 ≤ r.max_x ∧ r.min_y ≤ p.2 ∧ p.2 ≤ r.max_y

/-- The fields of `tarkov_map::Map` (from `src/lib.rs`) that are read by
`game_to_display`:
`bounds : Option<[[f64;2];2]>` (documented format `[[maxX, minY], [minX, maxY]]`),
`coordinate_rotation : Option<f64>` (degrees),
`transform : Option<[f64;4]>` (`[scaleX, marginX, scaleY, marginY]`, stored
here as a nested pair in index order), and
`image_size : [f32;2]` (original image dimensions in pixels). -/
structure Map where
  bounds : Option ((ℝ × ℝ) × (ℝ × ℝ))
  coordinate_rotation : Option ℝ
  transform : Option (ℝ × ℝ × ℝ × ℝ)
  image_size : ℝ × ℝ

/-- Model of `rotate_point` (coordinates.rs lines 7-14): rotates a 2D point
by `angle_deg` degrees about the origin; the zero angle is special-cased and
returns the point unchanged, otherwise the angle is converted to radians
(`f64::to_radians` multiplies by `π / 180`) and the standard 2D rotation is
applied. -/
noncomputable def rotate_point (x y angle_deg : ℝ) : ℝ × ℝ :=
  if angle_deg = 0 then (x, y)
  else
    (x * Real.cos (angle_deg * (Real.pi / 180)) -
       y * Real.sin (angle_deg * (Real.pi / 180)),
     x * Real.sin (angle_deg * (Real.pi / 180)) +
       y * Real.cos (angle_deg * (Real.pi / 180)))

/-- Model of the general (non-affine) branch of `game_to_display`
(coordinates.rs lines 49-85): rotate the four corners of `bounds` by the
same rotation already applied to the point, take the axis-aligned bounding
box of the rotated corners (the source folds `min`/`max` starting from
`(∞, -∞)` over the four corners, which equals the four-way `min`/`max`
written here), normalize the rotated point within that box — with the Y
axis inverted — and map the fractions into `map_rect`. -/
noncomputable def project_by_bounds (bounds : (ℝ × ℝ) × (ℝ × ℝ)) (rotation : ℝ)
    (map_rect : Rect) (rotated : ℝ × ℝ) : ℝ × ℝ :=
  let c0 := rotate_point bounds.1.1 bounds.1.2 rotation
  let c1 := rotate_point bounds.1.1 bounds.2.2 rotation
  let c2 := rotate_point bounds.2.1 bounds.1.2 rotation
  let c3 := rotate_point bounds.2.1 bounds.2.2 rotation
  let rotated_min_x := min (min (min c0.1 c1.1) c2.1) c3.1
  let rotated_max_x := max (max (max c0.1 c1.1) c2.1) c3.1
  let rotated_min_y := min (min (min c0.2 c1.2) c2.2) c3.2
  let rotated_max_y := max (max (max c0.2 c1.2) c2.2) c3.2
  let bounds_width := rotated_max_x - rotated_min_x
  let bounds_height := rotated_max_y - rotated_min_y
  let frac_x := (rotated.1 - rotated_min_x) / bounds_width
  let frac_y := (rotated_max_y - rotated.2) / bounds_height
  (map_rect.min_x + frac_x * map_rect.width,
   map_rect.min_y + frac_y * map_rect.height)

open Classical in
/-- Model of `game_to_display` (coordinates.rs lines 21-86).  Returns `none`
when `bounds` is absent.  Otherwise the game point is rotated by
`coordinate_rotation` (0 when absent); when the rotation is exactly 270 and
a `transform` is present, the special-cased affine path computes
`svg = (scaleX·x' + marginX, (-scaleY)·y' + marginY)`, normalizes by
`image_size` and maps into `map_rect`; otherwise the general
bounds-normalizing path `project_by_bounds` is taken. -/
noncomputable def game_to_display (map : Map) (map_rect : Rect)
    (game_pos : ℝ × ℝ) : Option (ℝ × ℝ) :=
  match map.bounds with
  | none => none
  | some bounds =>
    let rotation := map.coordinate_rotation.getD 0
    let rotated := rotate_point game_pos.1 game_pos.2 rotation
    if rotation = 270 ∧ map.transform.isSome then
      let transform := map.transform.getD (0, 0, 0, 0)
      let scale_x := transform.1
      let margin_x := transform.2.1
      let scale_y := -transform.2.2.1
      let margin_y := transform.2.2.2
      let svg_x := scale_x * rotated.1 + margin_x
      let svg_y := scale_y * rotated.2 + margin_y
      let frac_x := svg_x / map.image_size.1
      let frac_y := svg_y / map.image_size.2
      some (map_rect.min_x + frac_x * map_rect.width,
            map_rect.min_y + frac_y * map_rect.height)
    else
      some (project_by_bounds bounds rotation map_rect rotated)

/-- Exact value of the cosine used by `rotate_point` at 90 degrees. -/
theorem deg90_cos : Real.cos ((90 : ℝ) * (Real.pi / 180)) = 0 := by
  have h : (90 : ℝ) * (Real.pi / 180) = Real.pi / 2 := by ring
  rw [h, Real.cos_pi_div_two]

/-- Exact value of the sine used by `rotate_point` at 90 degrees. -/
theorem deg90_sin : Real.sin ((90 : ℝ) * (Real.pi / 180)) = 1 := by
  have h : (90 : ℝ) * (Real.pi / 180) = Real.pi / 2 := by ring
  rw [h, Real.sin_pi_div_two]

/-- Exact value of the cosine used by `rotate_point` at 180 degrees. -/
theorem deg180_cos : Real.cos ((180 : ℝ) * (Real.pi / 180)) = -1 := by
  have h : (180 : ℝ) * (Real.pi / 180) = Real.pi := by ring
  rw [h, Real.cos_pi]

/-- Exact value of the sine used by `rotate_point` at 180 degrees. -/
theorem deg180_sin : Real.sin ((180 : ℝ) * (Real.pi / 180)) = 0 := by
  have h : (180 : ℝ) * (Real.pi / 180) = Real.pi := by ring
  rw [h, Real.sin_pi]

/-- Exact value of the cosine used by `rotate_point` at 270 degrees. -/
theorem deg270_cos : Real.cos ((270 : ℝ) * (Real.pi / 180)) = 0 := by
  have h : (270 : ℝ) * (Real.pi / 180) = Real.pi + Real.pi / 2 := by ring
  rw [h, Real.cos_add, Real.cos_pi, Real.sin_pi, Real.cos_pi_div_two]
  ring

/-- Exact value of the sine used by `rotate_point` at 270 degrees. -/
theorem deg270_sin : Real.sin ((270 : ℝ) * (Real.pi / 180)) = -1 := by
  have h : (270 : ℝ) * (Real.pi / 180) = Real.pi + Real.pi / 2 := by ring
  rw [h, Real.sin_add, Real.cos_pi, Real.sin_pi, Real.sin_pi_div_two]
  ring

/-- Evaluation of `rotate_point` at rotation 0 (the special-cased early return). -/
theorem rotate_point_zero (x y : ℝ) : rotate_point x y 0 = (x, y) := by
  simp [rotate_point]

/-- Evaluation of `rotate_point` at rotation 90: `(x, y) ↦ (-y, x)`. -/
theorem rotate_point_90 (x y : ℝ) : rotate_point x y 90 = (-y, x) := by
  rw [rotate_point, if_neg (by norm_num)]
  rw [deg90_cos, deg90_sin]
  norm_num

/-- Evaluation of `rotate_point` at rotation 180: `(x, y) ↦ (-x, -y)`. -/
theorem rotate_point_180 (x y : ℝ) : rotate_point x y 180 = (-x, -y) := by
  rw [rotate_point, if_neg (by norm_num)]
  rw [deg180_cos, deg180_sin]
  norm_num

/-- Evaluation of `rotate_point` at rotation 270: `(x, y) ↦ (y, -x)`. -/
theorem rotate_point_270 (x y : ℝ) : rotate_point x y 270 = (y, -x) := by
  rw [rotate_point, if_neg (by norm_num)]
  rw [deg270_cos, deg270_sin]
  norm_num

/-- Four-way minimum of the pattern `a, a, b, b` with `b ≤ a`. -/
theorem min4_aabb (a b : ℝ) (h : b ≤ a) : min (min (min a a) b) b = b := by
  rw [min_self, min_eq_right h, min_self]

/-- Four-way maximum of the pattern `a, a, b, b` with `b ≤ a`. -/
theorem max4_aabb (a b : ℝ) (h : b ≤ a) : max (max (max a a) b) b = a := by
  rw [max_self, max_eq_left h, max_eq_left h]

/-- Four-way minimum of the pattern `a, b, a, b` with `b ≤ a`. -/
theorem min4_abab (a b : ℝ) (h : b ≤ a) : min (min (min a b) a) b = b := by
  rw [min_eq_right h, min_eq_left h, min_self]

/-- Four-way maximum of the pattern `a, b, a, b` with `b ≤ a`. -/
theorem max4_abab (a b : ℝ) (h : b ≤ a) : max (max (max a b) a) b = a := by
  rw [max_eq_left h, max_self, max_eq_left h]

/-- Four-way minimum of the pattern `b, a, b, a` with `b ≤ a`. -/
theorem min4_baba (a b : ℝ) (h : b ≤ a) : min (min (min b a) b) a = b := by
  rw [min_eq_left h, min_self, min_eq_left h]

/-- Four-way maximum of the pattern `b, a, b, a` with `b ≤ a`. -/
theorem max4_baba (a b : ℝ) (h : b ≤ a) : max (max (max b a) b) a = a := by
  rw [max_eq_right h, max_eq_left h, max_self]

/-- Four-way minimum of the pattern `b, b, a, a` with `b ≤ a`. -/
theorem min4_bbaa (a b : ℝ) (h : b ≤ a) : min (min (min b b) a) a = b := by
  rw [min_self, min_eq_left h, min_eq_left h]

/-- Four-way maximum of the pattern `b, b, a, a` with `b ≤ a`. -/
theorem max4_bbaa (a b : ℝ) (h : b ≤ a) : max (max (max b b) a) a = a := by
  rw [max_self, max_eq_right h, max_self]

/-- Normalized fraction `(v - lo) / (hi - lo)` lies in `[0, 1]` when
`lo ≤ v ≤ hi` and `lo < hi`. -/
theorem frac_mem_unit (lo v hi : ℝ) (hlo : lo ≤ v) (hhi : v ≤ hi) (h : lo < hi) :
    0 ≤ (v - lo) / (hi - lo) ∧ (v - lo) / (hi - lo) ≤ 1 := by
  have hpos : (0 : ℝ) < hi - lo := by linarith
  exact ⟨div_nonneg (by linarith) hpos.le, (div_le_one hpos).mpr (by linarith)⟩

/-- Inverted normalized fraction `(hi - v) / (hi - lo)` lies in `[0, 1]` when
`lo ≤ v ≤ hi` and `lo < hi`. -/
theorem frac_inv_mem_unit (lo v hi : ℝ) (hlo : lo ≤ v) (hhi : v ≤ hi) (h : lo < hi) :
    0 ≤ (hi - v) / (hi - lo) ∧ (hi - v) / (hi - lo) ≤ 1 := by
  have hpos : (0 : ℝ) < hi - lo := by linarith
  exact ⟨div_nonneg (by linarith) hpos.le, (div_le_one hpos).mpr (by linarith)⟩

/-- Mapping a fraction `f ∈ [0, 1]` affinely into `[a, b]` stays in `[a, b]`. -/
theorem affine_mem_interval (a b f : ℝ) (hab : a ≤ b) (h0 : 0 ≤ f) (h1 : f ≤ 1) :
    a ≤ a + f * (b - a) ∧ a + f * (b - a) ≤ b := by
  constructor
  · nlinarith
  · nlinarith

/-- Containment for the general branch at rotation 0: the projection of a
point of the bounds rectangle lands inside the display rectangle. -/
theorem project_contains_0 (maxX minY minX maxY : ℝ) (r : Rect) (p : ℝ × ℝ)
    (hwx : minX < maxX) (hwy : minY < maxY)
    (hx1 : minX ≤ p.1) (hx2 : p.1 ≤ maxX) (hy1 : minY ≤ p.2) (hy2 : p.2 ≤ maxY)
    (hr1 : r.min_x ≤ r.max_x) (hr2 : r.min_y ≤ r.max_y) :
    r.containsPt (project_by_bounds ((maxX, minY), (minX, maxY)) 0 r (p.1, p.2)) := by
  simp only [project_by_bounds, rotate_point_zero]
  rw [min4_aabb maxX minX hwx.le, max4_aabb maxX minX hwx.le,
    min4_baba maxY minY hwy.le, max4_baba maxY minY hwy.le]
  have hFx := frac_mem_unit minX p.1 maxX hx1 hx2 hwx
  have hFy := frac_inv_mem_unit minY p.2 maxY hy1 hy2 hwy
  exact ⟨(affine_mem_interval r.min_x r.max_x _ hr1 hFx.1 hFx.2).1,
         (affine_mem_interval r.min_x r.max_x _ hr1 hFx.1 hFx.2).2,
         (affine_mem_interval r.min_y r.max_y _ hr2 hFy.1 hFy.2).1,
         (affine_mem_interval r.min_y r.max_y _ hr2 hFy.1 hFy.2).2⟩

/-- Containment for the general branch at rotation 90 (the rotated point is
`(-p.2, p.1)`). -/
theorem project_contains_90 (maxX minY minX maxY : ℝ) (r : Rect) (p : ℝ × ℝ)
    (hwx : minX < maxX) (hwy : minY < maxY)
    (hx1 : minX ≤ p.1) (hx2 : p.1 ≤ maxX) (hy1 : minY ≤ p.2) (hy2 : p.2 ≤ maxY)
    (hr1 : r.min_x ≤ r.max_x) (hr2 : r.min_y ≤ r.max_y) :
    r.containsPt (project_by_bounds ((maxX, minY), (minX, maxY)) 90 r (-p.2, p.1)) := by
  simp only [project_by_bounds, rotate_point_90]
  rw [min4_abab (-minY) (-maxY) (by linarith), max4_abab (-minY) (-maxY) (by linarith),
    min4_aabb maxX minX hwx.le, max4_aabb maxX minX hwx.le]
  have hFx := frac_mem_unit (-maxY) (-p.2) (-minY) (by linarith) (by linarith) (by linarith)
  have hFy := frac_inv_mem_unit minX p.1 maxX hx1 hx2 hwx
  exact ⟨(affine_mem_interval r.min_x r.max_x _ hr1 hFx.1 hFx.2).1,
         (affine_mem_interval r.min_x r.max_x _ hr1 hFx.1 hFx.2).2,
         (affine_mem_interval r.min_y r.max_y _ hr2 hFy.1 hFy.2).1,
         (affine_mem_interval r.min_y r.max_y _ hr2 hFy.1 hFy.2).2⟩

/-- Containment for the general branch at rotation 180 (the rotated point is
`(-p.1, -p.2)`). -/
theorem project_contains_180 (maxX minY minX maxY : ℝ) (r : Rect) (p : ℝ × ℝ)
    (hwx : minX < maxX) (hwy : minY < maxY)
    (hx1 : minX ≤ p.1) (hx2 : p.1 ≤ maxX) (hy1 : minY ≤ p.2) (hy2 : p.2 ≤ maxY)
    (hr1 : r.min_x ≤ r.max_x) (hr2 : r.min_y ≤ r.max_y) :
    r.containsPt (project_by_bounds ((maxX, minY), (minX, maxY)) 180 r (-p.1, -p.2)) := by
  simp only [project_by_bounds, rotate_point_180]
  rw [min4_bbaa (-minX) (-maxX) (by linarith), max4_bbaa (-minX) (-maxX) (by linarith),
    min4_abab (-minY) (-maxY) (by linarith), max4_abab (-minY) (-maxY) (by linarith)]
  have hFx := frac_mem_unit (-maxX) (-p.1) (-minX) (by linarith) (by linarith) (by linarith)
  have hFy := frac_inv_mem_unit (-maxY) (-p.2) (-minY) (by linarith) (by linarith) (by linarith)
  exact ⟨(affine_mem_interval r.min_x r.max_x _ hr1 hFx.1 hFx.2).1,
         (affine_mem_interval r.min_x r.max_x _ hr1 hFx.1 hFx.2).2,
         (affine_mem_interval r.min_y r.max_y _ hr2 hFy.1 hFy.2).1,
         (affine_mem_interval r.min_y r.max_y _ hr2 hFy.1 hFy.2).2⟩

/-- Containment for the general branch at rotation 270 (the rotated point is
`(p.2, -p.1)`). -/
theorem project_contains_270 (maxX minY minX maxY : ℝ) (r : Rect) (p : ℝ × ℝ)
    (hwx : minX < maxX) (hwy : minY < maxY)
    (hx1 : minX ≤ p.1) (hx2 : p.1 ≤ maxX) (hy1 : minY ≤ p.2) (hy2 : p.2 ≤ maxY)
    (hr1 : r.min_x ≤ r.max_x) (hr2 : r.min_y ≤ r.max_y) :
    r.containsPt (project_by_bounds ((maxX, minY), (minX, maxY)) 270 r (p.2, -p.1)) := by
  simp only [project_by_bounds, rotate_point_270]
  rw [min4_baba maxY minY hwy.le, max4_baba maxY minY hwy.le,
    min4_bbaa (-minX) (-maxX) (by linarith), max4_bbaa (-minX) (-maxX) (by linarith)]
  have hFx := frac_mem_unit minY p.2 maxY hy1 hy2 hwy
  have hFy := frac_inv_mem_unit (-maxX) (-p.1) (-minX) (by linarith) (by linarith) (by linarith)
  exact ⟨(affine_mem_interval r.min_x r.max_x _ hr1 hFx.1 hFx.2).1,
         (affine_mem_interval r.min_x r.max_x _ hr1 hFx.1 hFx.2).2,
         (affine_mem_interval r.min_y r.max_y _ hr2 hFy.1 hFy.2).1,
         (affine_mem_interval r.min_y r.max_y _ hr2 hFy.1 hFy.2).2⟩

/-- Characterization of `game_to_display` when `bounds` is present and the
270-degree affine special case does not apply: the general
bounds-normalizing branch is taken. -/
theorem game_to_display_general (map : Map) (r : Rect) (p : ℝ × ℝ)
    (b : (ℝ × ℝ) × (ℝ × ℝ)) (hb : map.bounds = some b)
    (hno : ¬(map.coordinate_rotation.getD 0 = 270 ∧ map.transform.isSome)) :
    game_to_display map r p
      = some (project_by_bounds b (map.coordinate_rotation.getD 0) r
          (rotate_point p.1 p.2 (map.coordinate_rotation.getD 0))) := by
  simp only [game_to_display, hb]
  rw [if_neg hno]

/-- C1 (amended): for every map whose `bounds` is present in the documented
well-formed format `[[maxX, minY], [minX, maxY]]`, whose rotation (0 when
absent) is one of 0, 90, 180 or 270, and which does NOT hit the special-cased
affine path (rotation 270 with a `transform` present), every game point
strictly inside `bounds` is sent by `game_to_display` to `some p` with `p`
inside the display rectangle.  The affine path had to be excluded: the claim
as stated is refuted by `c1_affine_escapes_rect`. -/
theorem game_to_display_inside_rect (map : Map) (r : Rect) (p : ℝ × ℝ)
    (maxX minY minX maxY : ℝ)
    (hb : map.bounds = some ((maxX, minY), (minX, maxY)))
    (hwx : minX < maxX) (hwy : minY < maxY)
    (hrot : map.coordinate_rotation.getD 0 = 0 ∨ map.coordinate_rotation.getD 0 = 90 ∨
      map.coordinate_rotation.getD 0 = 180 ∨ map.coordinate_rotation.getD 0 = 270)
    (hnoaff : ¬(map.coordinate_rotation.getD 0 = 270 ∧ map.transform.isSome))
    (hx1 : minX < p.1) (hx2 : p.1 < maxX) (hy1 : minY < p.2) (hy2 : p.2 < maxY)
    (hr1 : r.min_x ≤ r.max_x) (hr2 : r.min_y ≤ r.max_y) :
    ∃ q, game_to_display map r p = some q ∧ r.containsPt q := by
  rw [game_to_display_general map r p _ hb hnoaff]
  refine ⟨_, rfl, ?_⟩
  rcases hrot with h | h | h | h <;> rw [h]
  · rw [show rotate_point p.1 p.2 0 = (p.1, p.2) from rotate_point_zero p.1 p.2]
    exact project_contains_0 maxX minY minX maxY r p hwx hwy
      hx1.le hx2.le hy1.le hy2.le hr1 hr2
  · rw [rotate_point_90]
    exact project_contains_90 maxX minY minX maxY r p hwx hwy
      hx1.le hx2.le hy1.le hy2.le hr1 hr2
  · rw [rotate_point_180]
    exact project_contains_180 maxX minY minX maxY r p hwx hwy
      hx1.le hx2.le hy1.le hy2.le hr1 hr2
  · rw [rotate_point_270]
    exact project_contains_270 maxX minY minX maxY r p hwx hwy
      hx1.le hx2.le hy1.le hy2.le hr1 hr2

/-- Witness for C1 (amended): a concrete map with well-formed bounds,
rotation 90 and no transform; the point `(0, 0)` strictly inside the bounds
is projected inside the display rectangle `(0,0)-(200,200)`. -/
theorem game_to_display_inside_rect_witness :
    ∃ q, game_to_display ⟨some ((1, -1), (-1, 1)), some 90, none, (1, 1)⟩
      ⟨0, 0, 200, 200⟩ (0, 0) = some q ∧ (Rect.mk 0 0 200 200).containsPt q :=
  game_to_display_inside_rect ⟨some ((1, -1), (-1, 1)), some 90, none, (1, 1)⟩
    ⟨0, 0, 200, 200⟩ (0, 0) 1 (-1) (-1) 1 rfl (by norm_num) (by norm_num)
    (Or.inr (Or.inl rfl)) (by rintro ⟨h, -⟩; rw [Option.getD_some] at h; norm_num at h)
    (by norm_num) (by norm_num) (by norm_num) (by norm_num) (by norm_num) (by norm_num)

/-- Counterexample to C1 as stated: a map with well-formed bounds
`[[1, -1], [-1, 1]]`, rotation 270 and transform `[0, 0, 0, 10]` present
(the special-cased affine path), with `image_size = (1, 1)`.  The game point
`(0, 0)` is strictly inside the bounds, yet the affine path sends it to
`(0, 2000)`, far outside the display rectangle `(0,0)-(200,200)`. -/
theorem c1_affine_escapes_rect :
    game_to_display ⟨some ((1, -1), (-1, 1)), some 270, some (0, 0, 0, 10), (1, 1)⟩
        ⟨0, 0, 200, 200⟩ (0, 0) = some (0, 2000) ∧
      ¬ (Rect.mk 0 0 200 200).containsPt (0, 2000) ∧
      ((-1 : ℝ) < 0 ∧ (0 : ℝ) < 1) := by
  refine ⟨?_, ?_, by norm_num, by norm_num⟩
  · norm_num [game_to_display, rotate_point, Rect.width, Rect.height]
  · rw [Rect.containsPt]
    push_neg
    intro _ _ _
    norm_num

/-- Counterexample to C2 as stated: with `bounds = [[100, -50], [-100, 50]]`,
rotation 0, no transform and display rectangle `(0,0)-(200,200)`, projecting
the `bounds[0]` corner `(100, -50)` does NOT return `(0, 0)`. -/
theorem c2_corner_not_top_left :
    game_to_display ⟨some ((100, -50), (-100, 50)), some 0, none, (0, 0)⟩
        ⟨0, 0, 200, 200⟩ (100, -50) ≠ some (0, 0) := by
  norm_num [game_to_display, project_by_bounds, rotate_point, Rect.width,
    Rect.height, min_def, max_def]

/-- C2 (amended): with `bounds = [[100, -50], [-100, 50]]`, rotation 0, no
transform and display rectangle `(0,0)-(200,200)`, the `bounds[0]` corner
`(100, -50)` — game `maxX` and game `minY` — is projected to `(200, 200)`,
the rectangle's bottom-right (the Y-inversion rule sends game `minY` to the
image bottom), and the game origin `(0, 0)` is projected to the rectangle
center `(100, 100)`. -/
theorem c2_corner_maps_to_bottom_right :
    game_to_display ⟨some ((100, -50), (-100, 50)), some 0, none, (0, 0)⟩
        ⟨0, 0, 200, 200⟩ (100, -50) = some (200, 200) ∧
    game_to_display ⟨some ((100, -50), (-100, 50)), some 0, none, (0, 0)⟩
        ⟨0, 0, 200, 200⟩ (0, 0) = some (100, 100) := by
  constructor <;>
    norm_num [game_to_display, project_by_bounds, rotate_point, Rect.width,
      Rect.height, min_def, max_def]

/-- C8: for every map value whose `bounds` field is absent, `game_to_display`
returns `none`, regardless of the display rectangle, the game point and all
other map fields. -/
theorem game_to_display_none_of_no_bounds (map : Map) (r : Rect) (p : ℝ × ℝ)
    (h : map.bounds = none) : game_to_display map r p = none := by
  simp [game_to_display, h]

/-- Witness for C8: a concrete map without `bounds` but with rotation 270
and a transform present still projects to `none`. -/
theorem game_to_display_none_witness :
    game_to_display ⟨none, some 270, some (1, 2, 3, 4), (5, 6)⟩
      ⟨0, 0, 10, 10⟩ (1, 2) = none :=
  game_to_display_none_of_no_bounds ⟨none, some 270, some (1, 2, 3, 4), (5, 6)⟩
    ⟨0, 0, 10, 10⟩ (1, 2) rfl

end Coordinates

namespace FetchMaps

/-- Model of the `FetchError` enum (fetch_maps.rs lines 25-80); only the
variants reachable in the modelled code paths are included. -/
inductive FetchError where
  | HttpStatus (resource : String) (status : ℕ)
  | SvgParse (message : String)
  | MissingMapName (name : String)
  | MissingMapSource (name : String)
  | MissingMinZoom (name : String)
  | MissingMaxZoom (name : String)
deriving DecidableEq

/-- Model of `MapSpawnFragment` (fetch_maps.rs lines 117-125): one raw spawn
entry from the GraphQL feed, with its position (`MapPositionFragment`
`x`/`y`/`z`, `f64` modelled as `ℚ`), `sides` and `categories`. -/
structure MapSpawnFragment where
  position : ℚ × ℚ × ℚ
  sides : List String
  categories : List String
deriving DecidableEq

/-- Model of `tarkov_map::Spawn` (src/lib.rs lines 161-173). -/
structure Spawn where
  position : ℚ × ℚ × ℚ
  sides : List String
  categories : List String
deriving DecidableEq

/-- The spawn retention predicate of `fetch_map_spawns` (lines 413-416):
`sides` contains `"pmc"` or `"all"`, and `categories` contains `"player"`. -/
def spawnFilter (s : MapSpawnFragment) : Bool :=
  s.sides.any (fun side => side == "pmc" || side == "all") &&
    s.categories.any (fun cat => cat == "player")

/-- Conversion of a retained raw spawn into a `Spawn` (lines 417-421). -/
def toSpawn (s : MapSpawnFragment) : Spawn :=
  ⟨s.position, s.sides, s.categories⟩

/-- Model of the per-map spawn normalization of `fetch_map_spawns`
(lines 410-422): filter then convert.  This is the only place the filter
runs; the viewer (`overlays.rs` `draw_spawns`) draws every normalized spawn
without re-filtering. -/
def normalizeSpawns (spawns : List MapSpawnFragment) : List Spawn :=
  (spawns.filter spawnFilter).map toSpawn

/-- Pointwise agreement of the source's Bool filter with the specification
predicate stated over list membership. -/
theorem spawnFilter_eq_spec (s : MapSpawnFragment) :
    spawnFilter s
      = decide (("pmc" ∈ s.sides ∨ "all" ∈ s.sides) ∧ "player" ∈ s.categories) := by
  rw [Bool.eq_iff_iff]
  simp only [spawnFilter, Bool.and_eq_true, List.any_eq_true, Bool.or_eq_true,
    beq_iff_eq, decide_eq_true_eq]
  constructor
  · rintro ⟨⟨side, hside, h | h⟩, ⟨cat, hcat, hc⟩⟩
    · exact ⟨Or.inl (h ▸ hside), hc ▸ hcat⟩
    · exact ⟨Or.inr (h ▸ hside), hc ▸ hcat⟩
  · rintro ⟨h | h, hc⟩
    · exact ⟨⟨"pmc", h, Or.inl rfl⟩, ⟨"player", hc, rfl⟩⟩
    · exact ⟨⟨"all", h, Or.inr rfl⟩, ⟨"player", hc, rfl⟩⟩

/-- C5: a raw spawn entry is retained by the normalization exactly when its
`sides` list contains `"pmc"` or `"all"` AND its `categories` list contains
`"player"`; in particular `sides = ["scav"], categories = ["player"]` is
excluded and `sides = ["all"], categories = ["player"]` is included.  The
filter is part of `normalizeSpawns` itself, i.e. applied once at
normalization time. -/
theorem spawns_retained_iff (spawns : List MapSpawnFragment) :
    normalizeSpawns spawns
      = (spawns.filter fun s =>
          decide (("pmc" ∈ s.sides ∨ "all" ∈ s.sides) ∧ "player" ∈ s.categories)).map
          toSpawn ∧
    normalizeSpawns [⟨(0, 0, 0), ["scav"], ["player"]⟩] = [] ∧
    normalizeSpawns [⟨(0, 0, 0), ["all"], ["player"]⟩]
      = [⟨(0, 0, 0), ["all"], ["player"]⟩] := by
  refine ⟨?_, rfl, rfl⟩
  unfold normalizeSpawns
  congr 1
  exact List.filter_congr fun s _ => spawnFilter_eq_spec s

/-- Fields of `FetchedMap` (fetch_maps.rs lines 190-222) consumed by the
source-selection logic of `convert_group`. -/
structure FetchedMap where
  projection : String
  tile_size : Option ℤ
  min_zoom : Option ℤ
  max_zoom : Option ℤ
  svg_path : Option String
  tile_path : Option String
deriving DecidableEq

/-- The two asset-build strategies of `convert_group`. -/
inductive SourceStrategy where
  | svg (url : String)
  | tiles (template : String) (tile_size min_zoom max_zoom : ℤ)
deriving DecidableEq

/-- Model of the interactive-variant selection of `convert_group`
(line 660): the first variant with `projection == "interactive"`. -/
def findInteractive (maps : List FetchedMap) : Option FetchedMap :=
  maps.find? fun m => m.projection == "interactive"

/-- Model of the source-selection match of `convert_group` (lines 672-705):
a present `svg_path` always wins; otherwise a present `tile_path` requires
`min_zoom` and `max_zoom` (with `tile_size` defaulting to 256); with neither
path the build fails with `MissingMapSource`. -/
def selectSource (normalized_name : String) (m : FetchedMap) :
    Except FetchError SourceStrategy :=
  match m.svg_path, m.tile_path with
  | some svg_url, _ => .ok (.svg svg_url)
  | none, some tile_template =>
    match m.min_zoom with
    | none => .error (.MissingMinZoom normalized_name)
    | some min_zoom =>
      match m.max_zoom with
      | none => .error (.MissingMaxZoom normalized_name)
      | some max_zoom =>
        .ok (.tiles tile_template (m.tile_size.getD 256) min_zoom max_zoom)
  | none, none => .error (.MissingMapSource normalized_name)

/-- C9: a variant carrying an `svg_path` is always built with the SVG
strategy, whatever its tile fields are — in particular missing
`min_zoom`/`max_zoom` is no error when `svg_path` is present — and the
selection fails with `MissingMapSource` exactly when both `svg_path` and
`tile_path` are absent. -/
theorem selectSource_svg_priority (name : String) (m : FetchedMap) :
    (∀ u, m.svg_path = some u → selectSource name m = .ok (.svg u)) ∧
    (selectSource name m = .error (.MissingMapSource name) ↔
      m.svg_path = none ∧ m.tile_path = none) := by
  rcases m with ⟨proj, ts, mn, mx, svg, tile⟩
  constructor
  · rintro u rfl
    rfl
  · rcases svg with _ | u <;> rcases tile with _ | t <;>
      rcases mn with _ | mnv <;> rcases mx with _ | mxv <;>
      simp [selectSource]

/-- Witness for C9: a variant with both an SVG url and a tile template but
no zoom fields selects the SVG strategy without error. -/
theorem selectSource_svg_priority_witness :
    selectSource "woods"
        ⟨"interactive", none, none, none, some "map.svg", some "tiles/{z}/{x}/{y}.png"⟩
      = .ok (.svg "map.svg") :=
  (selectSource_svg_priority "woods"
      ⟨"interactive", none, none, none, some "map.svg", some "tiles/{z}/{x}/{y}.png"⟩).1
    "map.svg" rfl

/-- Constant `SVG_RENDER_SCALE` (line 181), `f32` value 2.0 modelled as `ℚ`. -/
def SVG_RENDER_SCALE : ℚ := 2

/-- Constant `MAPS_PATH_PREFIX` (line 179); named `MAPS_PATH_STEM` here. -/
def MAPS_PATH_STEM : String := "maps"

/-- Model of line 542: `let zoom = (max_zoom - zoom_offset).max(min_zoom)`. -/
def tileZoom (min_zoom max_zoom zoom_offset : ℤ) : ℤ :=
  max (max_zoom - zoom_offset) min_zoom

/-- Model of line 543: `let tiles_per_axis = 1u32 << zoom`, faithful for
`0 ≤ zoom < 32` (outside that range the Rust shift panics in debug builds). -/
def tilesPerAxis (zoom : ℤ) : ℕ := 2 ^ zoom.toNat

/-- Model of line 544: `let full_size = tiles_per_axis * tile_size as u32`,
faithful while the product stays below `2^32`. -/
def fullSize (zoom : ℤ) (tile_size : ℕ) : ℕ := tilesPerAxis zoom * tile_size

/-- Model of the tile coordinate double loop (lines 565-566). -/
def tileCoords (tiles_per_axis : ℕ) : List (ℕ × ℕ) :=
  (List.range tiles_per_axis).flatMap fun x =>
    (List.range tiles_per_axis).map fun y => (x, y)

/-- Model of the URL template substitution (lines 567-570). -/
def tileUrl (template : String) (zoom : ℤ) (x y : ℕ) : String :=
  ((template.replace "{z}" (toString zoom)).replace "{x}" (toString x)).replace
    "{y}" (toString y)

/-- The URLs requested for one tile-pyramid build: one per grid coordinate. -/
def tileRequests (template : String) (zoom : ℤ) : List String :=
  (tileCoords (tilesPerAxis zoom)).map fun c => tileUrl template zoom c.1 c.2

/-- Size of the tile coordinate grid: the double loop enumerates exactly
`n * n` coordinates. -/
theorem tileCoords_length (n : ℕ) : (tileCoords n).length = n * n := by
  rw [tileCoords, List.length_flatMap]
  have h : (List.length ∘ fun x : ℕ => List.map (fun y => (x, y)) (List.range n))
      = fun _ : ℕ => n := by
    funext x
    simp
  rw [h, List.map_const', List.sum_replicate, List.length_range, smul_eq_mul]

/-- C4: the target zoom is `max(min_zoom, max_zoom - zoom_offset)`, exactly
`(2^z)^2` tile URLs are generated and requested, and the composed canvas is
a square of side `2^z * tile_size`; concretely for `tile_size = 256`,
`min_zoom = 0`, `max_zoom = 4`, `zoom_offset = 1` the zoom is 3, exactly 64
tiles are requested, and the canvas is 2048×2048. -/
theorem tile_build_geometry (template : String) (min_zoom max_zoom zoom_offset : ℤ)
    (tile_size : ℕ) :
    tileZoom min_zoom max_zoom zoom_offset = max min_zoom (max_zoom - zoom_offset) ∧
    (tileRequests template (tileZoom min_zoom max_zoom zoom_offset)).length
      = (2 ^ (tileZoom min_zoom max_zoom zoom_offset).toNat) ^ 2 ∧
    fullSize (tileZoom min_zoom max_zoom zoom_offset) tile_size
      = 2 ^ (tileZoom min_zoom max_zoom zoom_offset).toNat * tile_size ∧
    tileZoom 0 4 1 = 3 ∧
    (tileRequests template (tileZoom 0 4 1)).length = 64 ∧
    fullSize (tileZoom 0 4 1) 256 = 2048 := by
  have hlen : ∀ z : ℤ, (tileRequests template z).length = (2 ^ z.toNat) ^ 2 := by
    intro z
    rw [tileRequests, List.length_map, tileCoords_length, tilesPerAxis, sq]
  refine ⟨max_comm _ _, hlen _, rfl, rfl, ?_, rfl⟩
  rw [hlen]
  rfl

/-- Model of `ImageResult` (lines 459-462): the recorded relative image path
and the recorded `image_size : [f32;2]` (modelled as `ℚ × ℚ`). -/
structure ImageResult where
  image_path : String
  image_size : ℚ × ℚ
deriving DecidableEq

/-- Outcome of one `process_svg_map` / `process_tile_map` invocation, with
the side effects made explicit: the returned `ImageResult`, the number of
network fetches performed, and the pixel dimensions of the cached raster
file `assets/maps/{name}.png` after the run. -/
structure RunOutcome where
  result : ImageResult
  network_requests : ℕ
  cache_after : Option (ℕ × ℕ)
deriving DecidableEq

/-- Rust `as u32` cast of a nonnegative float: truncation toward zero. -/
def ratToU32 (q : ℚ) : ℕ := q.floor.toNat

/-- The executable `Rat.floor` agrees with the floor of the `FloorRing`
instance on `ℚ`. -/
theorem ratFloor_eq_intFloor (q : ℚ) : q.floor = ⌊q⌋ := by
  rw [Rat.floor_def', Rat.floor_def]

/-- Model of `process_svg_map` (lines 464-525).  `source_size` is the size
the SVG parse reports (`tree.size()`); `cache` holds the pixel dimensions of
an existing `{name}.png`, if any.  On a cache hit without the force flag
(lines 473-483) the existing image is opened and `image_size` is reported as
its pixel dimensions divided by `SVG_RENDER_SCALE`, with no network request
and the file untouched.  Otherwise one fetch happens, the raster is rendered
at `source_size * SVG_RENDER_SCALE` (cast to `u32`) and written, and
`image_size` is reported as `source_size` itself (line 523). -/
def process_svg_map (normalized_name : String) (source_size : ℚ × ℚ)
    (force : Bool) (cache : Option (ℕ × ℕ)) : RunOutcome :=
  let image_relative := MAPS_PATH_STEM ++ "/" ++ normalized_name ++ ".png"
  match force, cache with
  | false, some dims =>
    ⟨⟨image_relative,
      ((dims.1 : ℚ) / SVG_RENDER_SCALE, (dims.2 : ℚ) / SVG_RENDER_SCALE)⟩,
      0, some dims⟩
  | _, _ =>
    ⟨⟨image_relative, source_size⟩, 1,
      some (ratToU32 (source_size.1 * SVG_RENDER_SCALE),
            ratToU32 (source_size.2 * SVG_RENDER_SCALE))⟩

/-- Model of `process_tile_map` (lines 528-642), its sizing and caching
behavior.  The zoom, grid and `source_size = (tile_size, tile_size)` are
computed before the cache check (lines 542-545).  On a cache hit without the
force flag (lines 547-552) nothing is fetched and the file is untouched.
Otherwise every grid tile URL is requested and a `full_size × full_size`
raster is composed (see `composeTiles`) and written.  In both cases the
reported `image_size` is `source_size = (tile_size, tile_size)`. -/
def process_tile_map (normalized_name template : String) (tile_size : ℕ)
    (min_zoom max_zoom zoom_offset : ℤ) (force : Bool)
    (cache : Option (ℕ × ℕ)) : RunOutcome :=
  let image_relative := MAPS_PATH_STEM ++ "/" ++ normalized_name ++ ".png"
  let zoom := tileZoom min_zoom max_zoom zoom_offset
  let source_size := ((tile_size : ℚ), (tile_size : ℚ))
  match force, cache with
  | false, some dims => ⟨⟨image_relative, source_size⟩, 0, some dims⟩
  | _, _ =>
    ⟨⟨image_relative, source_size⟩, (tileRequests template zoom).length,
      some (fullSize zoom tile_size, fullSize zoom tile_size)⟩

/-- Model of the `logical_size` computation in `convert_group`
(lines 707-714): derived from `bounds` when present, otherwise falling back
to the recorded `image_size`. -/
def logicalSize (bounds : Option ((ℚ × ℚ) × (ℚ × ℚ))) (image_size : ℚ × ℚ) :
    ℚ × ℚ :=
  match bounds with
  | some b => (|b.1.1 - b.2.1|, |b.2.2 - b.1.2|)
  | none => image_size

/-- Counterexample to C3 as stated: a fresh tile-pyramid build with
`tile_size = 256`, `min_zoom = 0`, `max_zoom = 4`, `zoom_offset = 1` writes
a 2048×2048 raster file but records `image_size = (256, 256)` — the recorded
raster size does not equal the composed canvas size; likewise a fresh SVG
build with source size `(300, 150)` records `(300, 150)`, not the claimed
`source_size * scale = (600, 300)`. -/
theorem c3_tile_image_size_not_canvas :
    (process_tile_map "interchange" "t/{z}/{x}/{y}.png" 256 0 4 1 true
        none).result.image_size = (256, 256) ∧
    (process_tile_map "interchange" "t/{z}/{x}/{y}.png" 256 0 4 1 true
        none).cache_after = some (2048, 2048) ∧
    ((256 : ℚ), (256 : ℚ)) ≠ ((2048 : ℚ), (2048 : ℚ)) ∧
    (process_svg_map "shoreline" (300, 150) true none).result.image_size
      ≠ ((300 : ℚ) * SVG_RENDER_SCALE, (150 : ℚ) * SVG_RENDER_SCALE) := by
  refine ⟨rfl, rfl, by norm_num [Prod.ext_iff], ?_⟩
  simp only [process_svg_map]
  norm_num [SVG_RENDER_SCALE, Prod.ext_iff]

/-- C3 (amended): the recorded `image_size` is the pre-supersampling source
size, not the written raster's native dimensions: a fresh SVG build records
`source_size` while writing a file of `source_size * SVG_RENDER_SCALE`
(truncated to `u32`) pixels; a cached SVG run records the file dimensions
divided by `SVG_RENDER_SCALE`; and a tile build records
`(tile_size, tile_size)` while writing a `2^z * tile_size` square file. -/
theorem image_size_records_source_size (name template : String)
    (source_size : ℚ × ℚ) (dims : ℕ × ℕ) (tile_size : ℕ)
    (min_zoom max_zoom zoom_offset : ℤ) (force : Bool)
    (cache : Option (ℕ × ℕ)) :
    (process_svg_map name source_size true cache).result.image_size
      = source_size ∧
    (process_svg_map name source_size true cache).cache_after
      = some (ratToU32 (source_size.1 * SVG_RENDER_SCALE),
              ratToU32 (source_size.2 * SVG_RENDER_SCALE)) ∧
    (process_svg_map name source_size false (some dims)).result.image_size
      = ((dims.1 : ℚ) / SVG_RENDER_SCALE, (dims.2 : ℚ) / SVG_RENDER_SCALE) ∧
    (process_tile_map name template tile_size min_zoom max_zoom zoom_offset
        force cache).result.image_size = ((tile_size : ℚ), (tile_size : ℚ)) ∧
    ((force = true ∨ cache = none) →
      (process_tile_map name template tile_size min_zoom max_zoom zoom_offset
          force cache).cache_after
        = some (fullSize (tileZoom min_zoom max_zoom zoom_offset) tile_size,
                fullSize (tileZoom min_zoom max_zoom zoom_offset) tile_size)) := by
  refine ⟨rfl, rfl, rfl, ?_, ?_⟩
  · rcases force with _ | _ <;> rcases cache with _ | d <;> rfl
  · rintro (rfl | rfl)
    · rcases cache with _ | d <;> rfl
    · rcases force with _ | _ <;> rfl

/-- Witness for C3 (amended): applying the theorem at a concrete fresh SVG
build with source size `(300, 150)` — recorded `image_size` is `(300, 150)`
while the written file is `600×300`. -/
theorem image_size_records_source_size_witness :
    (process_svg_map "customs" (300, 150) true none).result.image_size
      = (300, 150) ∧
    (process_svg_map "customs" (300, 150) true none).cache_after
      = some (600, 300) ∧
    (process_tile_map "customs" "t/{z}/{x}/{y}.png" 256 0 4 1 true
        none).cache_after = some (2048, 2048) :=
  ⟨(image_size_records_source_size "customs" "t" (300, 150) (0, 0) 256 0 4 1
      true none).1,
   ((image_size_records_source_size "customs" "t" (300, 150) (0, 0) 256 0 4 1
      true none).2.1).trans
     (by norm_num [ratToU32, ratFloor_eq_intFloor, SVG_RENDER_SCALE]; decide),
   ((image_size_records_source_size "customs" "t/{z}/{x}/{y}.png" (300, 150)
      (0, 0) 256 0 4 1 true none).2.2.2.2 (Or.inl rfl)).trans rfl⟩

/-- Rendering a half-integer dimension `a / 2` at `SVG_RENDER_SCALE = 2`
loses nothing to the `u32` truncation: the written size is exactly `a`. -/
theorem ratToU32_half_scale (a : ℕ) : ratToU32 ((a : ℚ) / 2 * SVG_RENDER_SCALE) = a := by
  have h : ((a : ℚ) / 2 * SVG_RENDER_SCALE) = (a : ℚ) := by
    rw [SVG_RENDER_SCALE]
    ring
  rw [h, ratToU32, ratFloor_eq_intFloor]
  simp

/-- C6 (amended): a second build run without the force flag performs zero
network requests for the map's asset, for both strategies (the first run
always leaves the raster in the cache); the reported sizes are identical to
the first run's for every tile-pyramid map, and for SVG maps whose source
dimensions are exact half-integers `(a/2, b/2)` (so that the rendered file
size `2 * dimension` truncates to nothing).  For other SVG source sizes the
second run's sizes can differ — see `c6_fractional_svg_size_changes`. -/
theorem second_run_cached_and_stable (name template : String)
    (source_size : ℚ × ℚ) (force1 : Bool) (cache0 cache0t : Option (ℕ × ℕ))
    (tile_size : ℕ) (min_zoom max_zoom zoom_offset : ℤ)
    (bounds : Option ((ℚ × ℚ) × (ℚ × ℚ))) :
    (process_svg_map name source_size false
        (process_svg_map name source_size force1 cache0).cache_after).network_requests
      = 0 ∧
    (∀ a b : ℕ, source_size = ((a : ℚ) / 2, (b : ℚ) / 2) →
      (process_svg_map name source_size false
          (process_svg_map name source_size force1 cache0).cache_after).result
        = (process_svg_map name source_size force1 cache0).result ∧
      logicalSize bounds
          (process_svg_map name source_size false
            (process_svg_map name source_size force1 cache0).cache_after).result.image_size
        = logicalSize bounds
            (process_svg_map name source_size force1 cache0).result.image_size) ∧
    (process_tile_map name template tile_size min_zoom max_zoom zoom_offset false
        (process_tile_map name template tile_size min_zoom max_zoom zoom_offset
          force1 cache0t).cache_after).network_requests = 0 ∧
    (process_tile_map name template tile_size min_zoom max_zoom zoom_offset false
        (process_tile_map name template tile_size min_zoom max_zoom zoom_offset
          force1 cache0t).cache_after).result
      = (process_tile_map name template tile_size min_zoom max_zoom zoom_offset
          force1 cache0t).result ∧
    logicalSize bounds
        (process_tile_map name template tile_size min_zoom max_zoom zoom_offset false
          (process_tile_map name template tile_size min_zoom max_zoom zoom_offset
            force1 cache0t).cache_after).result.image_size
      = logicalSize bounds
          (process_tile_map name template tile_size min_zoom max_zoom zoom_offset
            force1 cache0t).result.image_size := by
  have htile :
      (process_tile_map name template tile_size min_zoom max_zoom zoom_offset false
          (process_tile_map name template tile_size min_zoom max_zoom zoom_offset
            force1 cache0t).cache_after).result
        = (process_tile_map name template tile_size min_zoom max_zoom zoom_offset
            force1 cache0t).result := by
    rcases force1 with _ | _ <;> rcases cache0t with _ | dt <;> rfl
  refine ⟨?_, ?_, ?_, htile, by rw [htile]⟩
  · rcases force1 with _ | _ <;> rcases cache0 with _ | d <;> rfl
  · rintro a b rfl
    have hres :
        (process_svg_map name ((a : ℚ) / 2, (b : ℚ) / 2) false
            (process_svg_map name ((a : ℚ) / 2, (b : ℚ) / 2) force1
              cache0).cache_after).result
          = (process_svg_map name ((a : ℚ) / 2, (b : ℚ) / 2) force1 cache0).result := by
      rcases force1 with _ | _ <;> rcases cache0 with _ | d <;>
        first
          | rfl
          | (simp only [process_svg_map]
             rw [show (((a : ℚ) / 2, (b : ℚ) / 2).1 * SVG_RENDER_SCALE)
                   = ((a : ℚ) / 2 * SVG_RENDER_SCALE) from rfl,
               show (((a : ℚ) / 2, (b : ℚ) / 2).2 * SVG_RENDER_SCALE)
                   = ((b : ℚ) / 2 * SVG_RENDER_SCALE) from rfl,
               ratToU32_half_scale a, ratToU32_half_scale b]
             rw [SVG_RENDER_SCALE])
    exact ⟨hres, by rw [hres]⟩
  · rcases force1 with _ | _ <;> rcases cache0t with _ | dt <;> rfl

/-- Witness for C6 (amended): for a concrete SVG map with half-integer
source size `(100, 50)`, a forced first run followed by an unforced second
run reports the same `ImageResult` and the second run makes no network
request. -/
theorem second_run_cached_and_stable_witness :
    (process_svg_map "customs" (100, 50) false
        (process_svg_map "customs" (100, 50) true none).cache_after).result
      = (process_svg_map "customs" (100, 50) true none).result ∧
    (process_svg_map "customs" (100, 50) false
        (process_svg_map "customs" (100, 50) true none).cache_after).network_requests
      = 0 :=
  ⟨((second_run_cached_and_stable "customs" "t" (100, 50) true none none 256 0 4 1
        none).2.1 200 100 (by norm_num [Prod.ext_iff])).1,
   (second_run_cached_and_stable "customs" "t" (100, 50) true none none 256 0 4 1
        none).1⟩

/-- Counterexample to C6 as stated: an SVG source whose width `401/4` is not
a half-integer.  The first (cache-empty) run records
`image_size = (401/4, 50)` and writes a 200×100 file (the 200.5-pixel render
width truncates to 200); the second run takes the cache path, performs zero
network requests, but records `image_size = (100, 50) ≠ (401/4, 50)`. -/
theorem c6_fractional_svg_size_changes :
    (process_svg_map "labs" (401 / 4, 50) false
        (process_svg_map "labs" (401 / 4, 50) false none).cache_after).network_requests
      = 0 ∧
    (process_svg_map "labs" (401 / 4, 50) false
        (process_svg_map "labs" (401 / 4, 50) false none).cache_after).result.image_size
      ≠ (process_svg_map "labs" (401 / 4, 50) false none).result.image_size := by
  constructor
  · rfl
  · simp only [process_svg_map]
    norm_num [ratToU32, ratFloor_eq_intFloor, SVG_RENDER_SCALE, Prod.ext_iff]
    intro h
    rw [show Int.toNat 200 = 200 from rfl] at h
    norm_num at h

/-- RGBA pixel value, one `u8` channel per component. -/
abbrev Rgba := ℕ × ℕ × ℕ × ℕ

/-- Decoded tile image (the result of `tile.to_rgba8()`): dimensions plus a
pixel lookup; `enumerate_pixels` ranges over `[0, width) × [0, height)`. -/
structure TileImage where
  width : ℕ
  height : ℕ
  pixel : ℕ → ℕ → Rgba

/-- Canvas contents as a total pixel function. -/
abbrev Canvas := ℕ → ℕ → Rgba

/-- Initial canvas of `ImageBuffer::new` (line 612): fully transparent, all
channels zero. -/
def emptyCanvas : Canvas := fun _ _ => (0, 0, 0, 0)

/-- Model of the per-tile blit loop (lines 616-627): the decoded tile's
pixel `(tx, ty)` is written to `(x * tile_size + tx, y * tile_size + ty)`
when that target is inside the canvas (`fx < full_size && fy < full_size`);
all other canvas pixels keep their previous value. -/
def blitTile (full_size tile_size : ℕ) (canvas : Canvas) (x y : ℕ)
    (img : TileImage) : Canvas :=
  fun fx fy =>
    if x * tile_size ≤ fx ∧ fx < x * tile_size + img.width ∧
        y * tile_size ≤ fy ∧ fy < y * tile_size + img.height ∧
        fx < full_size ∧ fy < full_size then
      img.pixel (fx - x * tile_size) (fy - y * tile_size)
    else canvas fx fy

/-- One iteration of the composition loop (lines 614-629): decode the tile's
bytes with the external decoder (`image::load_from_memory`, abstracted as
the `decode` parameter); on success blit it, on failure leave the canvas
unchanged — no error is raised. -/
def composeStep (decode : List ℕ → Option TileImage) (full_size tile_size : ℕ)
    (canvas : Canvas) (t : ℕ × ℕ × List ℕ) : Canvas :=
  match decode t.2.2 with
  | some img => blitTile full_size tile_size canvas t.1 t.2.1 img
  | none => canvas

/-- Model of the whole composition loop: fold the downloaded `(x, y, bytes)`
tiles over the fresh transparent canvas. -/
def composeTiles (decode : List ℕ → Option TileImage) (full_size tile_size : ℕ)
    (tiles : List (ℕ × ℕ × List ℕ)) : Canvas :=
  tiles.foldl (composeStep decode full_size tile_size) emptyCanvas

/-- Coverage of a canvas pixel by a downloaded tile, mirroring the guard of
`blitTile` after a successful decode. -/
def coversPixel (decode : List ℕ → Option TileImage) (full_size tile_size : ℕ)
    (t : ℕ × ℕ × List ℕ) (fx fy : ℕ) : Prop :=
  ∃ img, decode t.2.2 = some img ∧
    (t.1 * tile_size ≤ fx ∧ fx < t.1 * tile_size + img.width ∧
     t.2.1 * tile_size ≤ fy ∧ fy < t.2.1 * tile_size + img.height ∧
     fx < full_size ∧ fy < full_size)

/-- A pixel covered by a tile whose image fits in `tile_size` determines the
tile's grid coordinate: `fx / tile_size = x`. -/
theorem tile_coord_determined (tile_size x w fx : ℕ) (hw : w ≤ tile_size)
    (h1 : x * tile_size ≤ fx) (h2 : fx < x * tile_size + w) :
    fx / tile_size = x := by
  have hwpos : 0 < w := by linarith
  have hts : 0 < tile_size := lt_of_lt_of_le hwpos hw
  have hle : x ≤ fx / tile_size := (Nat.le_div_iff_mul_le hts).mpr h1
  have h3 : fx < (x + 1) * tile_size := by
    rw [Nat.succ_mul]
    linarith
  have hlt : fx / tile_size < x + 1 := (Nat.div_lt_iff_lt_mul hts).mpr h3
  omega

/-- Blits of two decoded tiles at distinct grid coordinates commute, as long
as both images fit within `tile_size` (their canvas regions are then
disjoint). -/
theorem blitTile_comm (full_size tile_size x1 y1 x2 y2 : ℕ)
    (img1 img2 : TileImage) (hne : (x1, y1) ≠ (x2, y2))
    (h1w : img1.width ≤ tile_size) (h1h : img1.height ≤ tile_size)
    (h2w : img2.width ≤ tile_size) (h2h : img2.height ≤ tile_size)
    (canvas : Canvas) :
    blitTile full_size tile_size (blitTile full_size tile_size canvas x1 y1 img1)
        x2 y2 img2
      = blitTile full_size tile_size
          (blitTile full_size tile_size canvas x2 y2 img2) x1 y1 img1 := by
  funext fx fy
  simp only [blitTile]
  split_ifs with h2c h1c h1c
  · exfalso
    apply hne
    have hx1 := tile_coord_determined tile_size x1 img1.width fx h1w h1c.1 h1c.2.1
    have hx2 := tile_coord_determined tile_size x2 img2.width fx h2w h2c.1 h2c.2.1
    have hy1 :=
      tile_coord_determined tile_size y1 img1.height fy h1h h1c.2.2.1 h1c.2.2.2.1
    have hy2 :=
      tile_coord_determined tile_size y2 img2.height fy h2h h2c.2.2.1 h2c.2.2.2.1
    rw [Prod.ext_iff]
    exact ⟨hx1 ▸ hx2.symm ▸ rfl, hy1 ▸ hy2.symm ▸ rfl⟩
  · rfl
  · rfl
  · rfl

/-- C7 (amended): composing the downloaded tiles is order-independent — for
every permutation of the tile list the resulting canvas is pixel-for-pixel
identical — provided the grid coordinates are pairwise distinct (as the
build's double loop guarantees) and every decoded tile fits within
`tile_size` on both axes, so that distinct tiles write disjoint canvas
regions.  The fit hypothesis cannot be dropped: see
`c7_oversized_tile_order_dependent`. -/
theorem composeTiles_order_independent (decode : List ℕ → Option TileImage)
    (full_size tile_size : ℕ) (tiles tiles' : List (ℕ × ℕ × List ℕ))
    (hperm : tiles.Perm tiles')
    (hnodup : (tiles.map fun t => (t.1, t.2.1)).Nodup)
    (hfit : ∀ t ∈ tiles, ∀ img, decode t.2.2 = some img →
      img.width ≤ tile_size ∧ img.height ≤ tile_size) :
    composeTiles decode full_size tile_size tiles
      = composeTiles decode full_size tile_size tiles' := by
  unfold composeTiles
  apply hperm.foldl_eq'
  intro a ha b hb z
  rcases eq_or_ne a b with rfl | hne
  · rfl
  · have hcoords : (a.1, a.2.1) ≠ (b.1, b.2.1) := fun heq =>
      hne (List.inj_on_of_nodup_map hnodup ha hb heq)
    rcases hda : decode a.2.2 with _ | imga <;>
      rcases hdb : decode b.2.2 with _ | imgb <;>
      simp only [composeStep, hda, hdb]
    have hfa := hfit a ha imga hda
    have hfb := hfit b hb imgb hdb
    exact blitTile_comm full_size tile_size a.1 a.2.1 b.1 b.2.1 imga imgb
      hcoords hfa.1 hfa.2 hfb.1 hfb.2 z

/-- Decoder used by the C7 witness: a nonempty byte list decodes to a 1×1
image whose pixel is the first byte. -/
def unitDecode : List ℕ → Option TileImage
  | [] => none
  | b :: _ => some ⟨1, 1, fun _ _ => (b, 0, 0, 0)⟩

/-- Witness for C7 (amended): two concrete 1×1 tiles at distinct grid
coordinates compose to the same canvas in either download order. -/
theorem composeTiles_order_independent_witness :
    composeTiles unitDecode 2 1 [(0, 0, [7]), (1, 0, [9])]
      = composeTiles unitDecode 2 1 [(1, 0, [9]), (0, 0, [7])] :=
  composeTiles_order_independent unitDecode 2 1 _ _
    (List.Perm.swap (1, 0, [9]) (0, 0, [7]) [])
    (by decide)
    (by
      intro t ht img himg
      simp only [List.mem_cons, List.not_mem_nil, or_false] at ht
      rcases ht with rfl | rfl <;>
        · injection himg with h'
          rw [← h']
          exact ⟨le_refl 1, le_refl 1⟩)

/-- Decoder for the C7 counterexample: bytes `[0]` decode successfully to a
2×1 image — wider than the build's `tile_size` — and bytes `[1]` to a 1×1
image. -/
def oversizeDecode : List ℕ → Option TileImage
  | [0] => some ⟨2, 1, fun _ _ => (1, 1, 1, 1)⟩
  | [1] => some ⟨1, 1, fun _ _ => (2, 2, 2, 2)⟩
  | _ => none

/-- Counterexample to C7 as stated: with `tile_size = 1` and a successfully
decoded but oversized (2×1) tile at grid `(0, 0)` next to a 1×1 tile at
`(1, 0)`, the two download orders give canvases that differ at pixel
`(1, 0)` — the oversized tile overflows into its neighbour's region, so
composition is not order-independent for every successfully decoded tile
list. -/
theorem c7_oversized_tile_order_dependent :
    ([((0 : ℕ), (0 : ℕ), [(0 : ℕ)]), (1, 0, [1])] : List (ℕ × ℕ × List ℕ)).Perm
        [(1, 0, [1]), (0, 0, [0])] ∧
    composeTiles oversizeDecode 2 1 [(0, 0, [0]), (1, 0, [1])] 1 0
      ≠ composeTiles oversizeDecode 2 1 [(1, 0, [1]), (0, 0, [0])] 1 0 := by
  exact ⟨List.Perm.swap (1, 0, [1]) (0, 0, [0]) [], by decide⟩

/-- A composition pass leaves untouched every pixel not covered by any tile
of the list. -/
theorem composeTiles_untouched (decode : List ℕ → Option TileImage)
    (full_size tile_size : ℕ) (l : List (ℕ × ℕ × List ℕ)) (c : Canvas)
    (fx fy : ℕ)
    (h : ∀ t ∈ l, ¬ coversPixel decode full_size tile_size t fx fy) :
    l.foldl (composeStep decode full_size tile_size) c fx fy = c fx fy := by
  induction l generalizing c with
  | nil => rfl
  | cons t l ih =>
    rw [List.foldl_cons, ih _ (fun t' ht' => h t' (List.mem_cons_of_mem _ ht'))]
    have hnc := h t (List.mem_cons_self _ _)
    unfold composeStep
    rcases hd : decode t.2.2 with _ | img
    · rfl
    · simp only [blitTile]
      rw [if_neg (fun hc => hnc ⟨img, hd, hc⟩)]

/-- C10: a fetched tile whose bytes fail to decode does not fail the build
and raises no error — `composeTiles` is total — it is silently skipped:
composing the list with the bad tile gives exactly the canvas composed from
the remaining tiles (all of which are still blitted and the raster still
produced), and every pixel not covered by a remaining decoded tile is left
at the canvas's initial transparent value. -/
theorem composeTiles_skips_undecodable (decode : List ℕ → Option TileImage)
    (full_size tile_size : ℕ) (pre post : List (ℕ × ℕ × List ℕ))
    (x y : ℕ) (bad : List ℕ) (hbad : decode bad = none) :
    composeTiles decode full_size tile_size (pre ++ (x, y, bad) :: post)
      = composeTiles decode full_size tile_size (pre ++ post) ∧
    ∀ fx fy,
      (∀ t ∈ pre ++ post, ¬ coversPixel decode full_size tile_size t fx fy) →
      composeTiles decode full_size tile_size (pre ++ (x, y, bad) :: post) fx fy
        = (0, 0, 0, 0) := by
  have hbad' : decode ((x, y, bad) : ℕ × ℕ × List ℕ).2.2 = none := hbad
  have hstep : ∀ c : Canvas,
      composeStep decode full_size tile_size c (x, y, bad) = c := by
    intro c
    unfold composeStep
    rw [hbad']
  have h1 : composeTiles decode full_size tile_size (pre ++ (x, y, bad) :: post)
      = composeTiles decode full_size tile_size (pre ++ post) := by
    unfold composeTiles
    rw [List.foldl_append, List.foldl_cons, hstep, ← List.foldl_append]
  refine ⟨h1, ?_⟩
  intro fx fy hcov
  rw [h1]
  exact composeTiles_untouched decode full_size tile_size (pre ++ post)
    emptyCanvas fx fy hcov

/-- Decoder used by the C10 witness: bytes `[5]` decode to a 1×1 image,
anything else fails to decode. -/
def lossyDecode : List ℕ → Option TileImage
  | [5] => some ⟨1, 1, fun _ _ => (9, 9, 9, 9)⟩
  | _ => none

/-- Witness for C10: with a good tile at `(0, 0)` and an undecodable tile at
`(1, 0)`, the composed canvas equals the canvas of the good tile alone, and
the pixel `(1, 1)` in the bad tile's (uncovered) region stays transparent. -/
theorem composeTiles_skips_undecodable_witness :
    composeTiles lossyDecode 2 1 ([(0, 0, [5])] ++ (1, 0, [6]) :: [])
      = composeTiles lossyDecode 2 1 ([(0, 0, [5])] ++ []) ∧
    composeTiles lossyDecode 2 1 ([(0, 0, [5])] ++ (1, 0, [6]) :: []) 1 1
      = (0, 0, 0, 0) :=
  ⟨(composeTiles_skips_undecodable lossyDecode 2 1 [(0, 0, [5])] [] 1 0 [6]
      rfl).1,
   (composeTiles_skips_undecodable lossyDecode 2 1 [(0, 0, [5])] [] 1 0 [6]
      rfl).2 1 1
    (by
      intro t ht
      simp only [List.append_nil, List.mem_singleton] at ht
      subst ht
      rintro ⟨img, himg, hc⟩
      injection himg with h'
      rw [← h'] at hc
      simp at hc)⟩

end FetchMaps
